import Mathlib

/-!
Verification of the carrier-session core of cliresms (cliresms.py), as a
shallow embedding: strings are lists of characters, HTTP traffic is tracked by
explicit counters or oracle parameters, and Python exceptions are Except
values.  Each definition is transcribed from the source function named in its
doc comment.
-/

namespace Cliresms

/-- Python str.isspace-style class used by str.strip and the regexes
(ASCII fragment; the program only handles ASCII payloads). -/
def pyIsSpace (c : Char) : Bool := c.isWhitespace

/-- Python regex \d on the relevant ASCII inputs. -/
def pyIsDigit (c : Char) : Bool := c.isDigit

/-- Python regex \w (ASCII fragment). -/
def pyIsWord (c : Char) : Bool := c.isAlphanum || c == '_'

/-- Python str.strip(): drop whitespace from both ends. -/
def pyStrip (s : List Char) : List Char :=
  ((s.dropWhile pyIsSpace).reverse.dropWhile pyIsSpace).reverse

/-- Recursion worker for chunksOf.  Each step consumes n ≥ 1 characters, so a
fuel equal to the string length always suffices; the fuel only makes the
recursion structural. -/
def chunksOfFuel (n : Nat) : Nat → List Char → List (List Char)
  | _, [] => []
  | 0, xs => [xs]
  | fuel + 1, xs => xs.take n :: chunksOfFuel n fuel (xs.drop n)

/-- The slices message[i:i+n] for i in range(0, len(message), n), as produced
by the list comprehension in split_message (cliresms.py lines 208-209);
Python requires the step n to be positive there. -/
def chunksOf (n : Nat) (xs : List Char) : List (List Char) :=
  chunksOfFuel n xs.length xs

/-- split_message (cliresms.py lines 204-221).  `split` is the module-global
allow-split flag, `length` the carrier's message_length. -/
def split_message (message : List Char) (length : Nat) (split : Bool) :
    List (List Char) :=
  if message.length > length then
    if split then (chunksOf length message).map pyStrip
    else [message.take length]
  else [message.take length]

/-- re.sub(r'[\s\-\.]', '', recipient) in Account.validate_number
(line 380): remove whitespace, hyphens and dots everywhere. -/
def stripFormatChars (s : List Char) : List Char :=
  s.filter (fun c => !(pyIsSpace c || c == '-' || c == '.'))

/-- Account.validate_number (lines 378-386): after stripping format
characters, any character other than a digit or '+' raises ValueError. -/
def validate_number (recipient : List Char) : Except String (List Char) :=
  if (stripFormatChars recipient).any (fun c => !(pyIsDigit c || c == '+')) then
    .error "Number contains invalid characters."
  else .ok (stripFormatChars recipient)

/-- re.sub(r'(\+353|00353)', '0', recipient) in MeteorAccount.validate_number
(line 434): left-to-right, non-overlapping, with the alternation trying
'+353' before '00353' at each position. -/
def sub353 : List Char → List Char
  | '+' :: '3' :: '5' :: '3' :: rest => '0' :: sub353 rest
  | '0' :: '0' :: '3' :: '5' :: '3' :: rest => '0' :: sub353 rest
  | c :: cs => c :: sub353 cs
  | [] => []

/-- re.search(r'^08[0-9]\d{7}', s) (line 437): anchored at the start only,
so it requires the first ten characters to be 0, 8 and eight digits, and
puts no bound on what follows. -/
def matches08 (s : List Char) : Bool :=
  decide (10 ≤ s.length) && s.take 2 == ['0', '8'] &&
    ((s.drop 2).take 8).all pyIsDigit

/-- MeteorAccount.validate_number (lines 430-440). -/
def meteor_validate_number (recipient : List Char) : Except String (List Char) :=
  match validate_number recipient with
  | .error e => .error e
  | .ok r =>
    let r2 := sub353 r
    if matches08 r2 then .ok r2
    else .error "invalid; expected 10 digits beginning with 08"

/-- The quota-relevant state of an Account object: the _texts_remaining cache
(None initially, line 336) and a count of network requests issued so far. -/
structure QuotaState where
  cached : Option Int
  netCalls : Nat
deriving DecidableEq

/-- Python truthiness of the _texts_remaining attribute: None and 0 are
falsy, every other integer is truthy. -/
def pyTruthyOptInt : Option Int → Bool
  | none => false
  | some n => n != 0

/-- The texts_remaining property getter (lines 388-392):
`if not self._texts_remaining: self._texts_remaining = self._get_texts_remaining()`.
`fetch` is the value the carrier-specific remote `_get_texts_remaining` would
parse out of the response; issuing it counts one network request. -/
def texts_remaining_get (fetch : Int) (st : QuotaState) : Int × QuotaState :=
  if pyTruthyOptInt st.cached then
    (st.cached.getD 0, st)
  else
    (fetch, { cached := some fetch, netCalls := st.netCalls + 1 })

/-- `account.texts_remaining -= n` (line 297): a property read followed by
the setter (lines 394-396) writing the decremented value. -/
def texts_remaining_sub (fetch : Int) (n : Int) (st : QuotaState) : QuotaState :=
  let p := texts_remaining_get fetch st
  { p.2 with cached := some (p.1 - n) }

/-- The exception classes that can escape send_message to main's handler. -/
inductive PyExc where
  | httpError
  | urlError
  | loginException (msg : String)
  | valueError (msg : String)
deriving DecidableEq

/-- The quota gate of send_message (lines 287-290), run right after a
successful login: quota 0 and negative quota both raise LoginException. -/
def quota_gate (q : Int) : Except PyExc Unit :=
  if q == 0 then
    .error (.loginException "You don't have any more texts remaining.")
  else if q < 0 then
    .error (.loginException "Could not determine number of texts remaining.")
  else .ok ()

/-- main's top-level handler (lines 114-126): `except (HTTPError, URLError,
LoginException)` prints the failure and asks "Retry send? [Y/n]".  Any other
exception (e.g. ValueError) is not caught there. -/
def main_offers_retry : PyExc → Bool
  | .httpError => true
  | .urlError => true
  | .loginException _ => true
  | .valueError _ => false

/-- A persisted cookie: name, value, expiry (unix seconds, None for a session
cookie) and the discard-on-exit flag. -/
structure Cookie where
  name : List Char
  value : List Char
  expires : Option Int
  discard : Bool
deriving DecidableEq

/-- http.cookiejar.Cookie.is_expired: expired iff an expiry is set and is at
or before now. -/
def cookie_is_expired (now : Int) (c : Cookie) : Bool :=
  match c.expires with
  | some e => decide (e ≤ now)
  | none => false

/-- MozillaCookieJar.load() with the default ignore_discard=False,
ignore_expires=False (called at line 347): the stdlib loader skips cookies
flagged discard and cookies already expired. -/
def cookiejar_load (now : Int) (fileCookies : List Cookie) : List Cookie :=
  fileCookies.filter (fun c => !c.discard && !cookie_is_expired now c)

/-- Python's `a in b` on strings: a is a contiguous substring of b. -/
def pyStrIn : List Char → List Char → Bool
  | a, [] => a.isEmpty
  | a, b :: bs => a.isPrefixOf (b :: bs) || pyStrIn a bs

/-- Result of a login() call: what it returned and whether it performed the
network login handshake. -/
structure LoginOutcome where
  success : Bool
  usedNetwork : Bool
deriving DecidableEq

/-- Account.login (lines 341-366).  If the cookie file exists and some loaded
cookie's name tests `c.name in self.cookies['session']` (Python substring
containment, line 353), login returns True without any request; otherwise it
POSTs the login form, succeeding iff the response lands at the carrier's
logged-in URL (`remoteLandsLoggedIn`). -/
def account_login (fileExists : Bool) (loaded : List Cookie)
    (sessionName : List Char) (remoteLandsLoggedIn : Bool) : LoginOutcome :=
  if fileExists && loaded.any (fun c => pyStrIn c.name sessionName) then
    { success := true, usedNetwork := false }
  else
    { success := remoteLandsLoggedIn, usedNetwork := true }

/-- `for c in self.cj: if c.name == ...: v = c` keeps the last match; the
mutation that follows then hits that cookie object.  updateLastWhere applies f
to the last element satisfying p. -/
def updateLastWhere (p : Cookie → Bool) (f : Cookie → Cookie) :
    List Cookie → List Cookie
  | [] => []
  | c :: cs =>
    if cs.any p then c :: updateLastWhere p f cs
    else if p c then f c :: cs
    else c :: updateLastWhere p f cs

/-- The last element satisfying p, i.e. the final value of the loop variable
pattern above. -/
def lastWhere (p : Cookie → Bool) : List Cookie → Option Cookie
  | [] => none
  | c :: cs =>
    match lastWhere p cs with
    | some r => some r
    | none => if p c then some c else none

/-- Account.save_cookies (lines 368-376): the last cookie named
cookies['session'] gets discard cleared and expiry set to now + 30 minutes
(1800 s); if no cookie matches, the unbound variable raises NameError
(modelled as none). -/
def account_save_cookies (sessionName : List Char) (now : Int)
    (jar : List Cookie) : Option (List Cookie) :=
  if jar.any (fun c => c.name == sessionName) then
    some (updateLastWhere (fun c => c.name == sessionName)
      (fun c => { c with discard := false, expires := some (now + 1800) }) jar)
  else none

/-- ThreeAccount.save_cookies (lines 496-503): the session cookie gets
discard cleared and its expiry copied from the login cookie; neither cookie
is given a now+30min expiry.  Missing cookies raise NameError (none). -/
def three_save_cookies (loginName sessionName : List Char)
    (jar : List Cookie) : Option (List Cookie) :=
  match lastWhere (fun c => c.name == loginName) jar with
  | none => none
  | some lc =>
    if jar.any (fun c => c.name == sessionName) then
      some (updateLastWhere (fun c => c.name == sessionName)
        (fun c => { c with discard := false, expires := lc.expires }) jar)
    else none

/-- Python list.remove(x): delete the first element equal to x. -/
def pyRemove (x : List Char) : List (List Char) → List (List Char)
  | [] => []
  | y :: ys => if y == x then ys else y :: pyRemove x ys

/-- Outcome of the recipient-validation loop: the validated list built up,
the recipients list as left after in-place removals, and the recipients that
were actually passed to validate_number (a failed call is also the one that
gets the warning logged). -/
structure ValidateLoopResult where
  validated : List (List Char)
  remaining : List (List Char)
  calls : List (List Char)
deriving DecidableEq

/-- The for-loop of send_message (lines 274-281).  CPython's list iterator
walks by index while the except-branch removes the failing entry from the
same list, shifting later entries left; the fuel (≥ the number of loop
iterations, each of which advances the index) only makes this structural. -/
def validate_loop (validate : List Char → Except String (List Char)) :
    Nat → Nat → List (List Char) → List (List Char) → List (List Char) →
    ValidateLoopResult
  | 0, _, lst, acc, calls => { validated := acc, remaining := lst, calls := calls }
  | fuel + 1, i, lst, acc, calls =>
    if h : i < lst.length then
      let x := lst.get ⟨i, h⟩
      match validate x with
      | .ok v => validate_loop validate fuel (i + 1) lst (acc ++ [v]) (calls ++ [x])
      | .error _ => validate_loop validate fuel (i + 1) (pyRemove x lst) acc (calls ++ [x])
    else { validated := acc, remaining := lst, calls := calls }

/-- The whole validation pass of send_message over the recipients list. -/
def validate_recipients (validate : List Char → Except String (List Char))
    (recipients : List (List Char)) : ValidateLoopResult :=
  validate_loop validate recipients.length 0 recipients [] []

/-- The value of an ok Except, as used when every validation succeeds. -/
def exOk : Except String (List Char) → List Char
  | .ok v => v
  | .error _ => []

/-- The double-quote character. -/
def cQuote : Char := Char.ofNat 34

/-- The single-quote character. -/
def cApos : Char := Char.ofNat 39

/-- Newline. -/
def cNl : Char := Char.ofNat 10

/-- Opening curly brace. -/
def cBraceOpen : Char := Char.ofNat 123

/-- Closing curly brace. -/
def cBraceClose : Char := Char.ofNat 125

/-- Python regex class [^\S\n]: whitespace other than newline. -/
def isWsNotNl (c : Char) : Bool := c.isWhitespace && !(c == cNl)

/-- For the lazy `\*(.*?)\*/` part of the comment regex: the input after the
first `*` `/` pair, if any. -/
def afterBlockClose : List Char → Option (List Char)
  | '*' :: '/' :: rest => some rest
  | _ :: rest => afterBlockClose rest
  | [] => none

/-- Length of a match of O2Account.parse_json's comment regex
`(^)?[^\S\n]*/(?:\*(.*?)\*/[^\S\n]*|/[^\n]*)($)?` (lines 577-580) anchored at
the start of s: a run of non-newline whitespace, a slash, then either a lazily
closed block comment plus trailing non-newline whitespace, or a line comment
up to the newline.  Whitespace characters are never '/', so the greedy
whitespace run is forced and no backtracking arises. -/
def commentMatchLen (s : List Char) : Option Nat :=
  let k := (s.takeWhile isWsNotNl).length
  match s.drop k with
  | '/' :: '*' :: rest =>
    match afterBlockClose rest with
    | some rest2 =>
      some (k + 2 + (rest.length - rest2.length) +
        (rest2.takeWhile isWsNotNl).length)
    | none => none
  | '/' :: '/' :: rest =>
    some (k + 2 + (rest.takeWhile (fun c => !(c == cNl))).length)
  | _ => none

/-- comment_re.search: the leftmost match as (start index, length). -/
def findCommentAux : List Char → Nat → Option (Nat × Nat)
  | [], _ => none
  | c :: rest, i =>
    match commentMatchLen (c :: rest) with
    | some len => some (i, len)
    | none => findCommentAux rest (i + 1)

/-- The `while match:` comment-stripping loop (lines 581-584): remove the
leftmost comment match and search again.  Every match contains a slash, so
each round shortens the text and a fuel of the initial length suffices. -/
def stripCommentsFuel : Nat → List Char → List Char
  | 0, content => content
  | fuel + 1, content =>
    match findCommentAux content 0 with
    | none => content
    | some (i, len) => stripCommentsFuel fuel (content.take i ++ content.drop (i + len))

/-- re.sub('\'', '"', content) (line 587). -/
def pyQuoteFix (s : List Char) : List Char :=
  s.map (fun c => if c == cApos then cQuote else c)

/-- re.sub(' \* \d*,', ',', content) (line 589): replace space-star-space,
digits, comma by a comma, scanning left to right.  Each step consumes at
least one character of the input, so a fuel of the length suffices. -/
def stripStarFragFuel : Nat → List Char → List Char
  | 0, s => s
  | fuel + 1, s =>
    match s with
    | ' ' :: '*' :: ' ' :: rest =>
      (match rest.dropWhile pyIsDigit with
       | ',' :: r => ',' :: stripStarFragFuel fuel r
       | _ => ' ' :: stripStarFragFuel fuel ('*' :: ' ' :: rest))
    | c :: cs => c :: stripStarFragFuel fuel cs
    | [] => []

/-- quote_re = `[{,][\n\r\t]*\s*(\w+)\s*:` with quote_wrap (lines 591-598):
after a brace or comma, wrap the bare word key in double quotes, keeping the
surrounding whitespace.  [\n\r\t]* followed by \s* matches exactly the \s*
strings, and \w+ greedy admits no backtracking before \s* and ':'.  Scanning
resumes after the ':' of a match, or one character on, on failure. -/
def quoteKeysFuel : Nat → List Char → List Char
  | 0, s => s
  | fuel + 1, s =>
    match s with
    | [] => []
    | c :: rest =>
      if c == cBraceOpen || c == ',' then
        let ws1 := rest.takeWhile pyIsSpace
        let r1 := rest.drop ws1.length
        let word := r1.takeWhile pyIsWord
        let r2 := r1.drop word.length
        let ws2 := r2.takeWhile pyIsSpace
        let r3 := r2.drop ws2.length
        match word, r3 with
        | [], _ => c :: quoteKeysFuel fuel rest
        | _ :: _, ':' :: r4 =>
          c :: (ws1 ++ (cQuote :: word) ++ (cQuote :: ws2) ++
            (':' :: quoteKeysFuel fuel r4))
        | _ :: _, _ => c :: quoteKeysFuel fuel rest
      else c :: quoteKeysFuel fuel rest

/-- JSON values, as far as the carrier payloads need. -/
inductive JValue where
  | jnum (n : Int)
  | jstr (s : List Char)
  | jbool (b : Bool)
  | jnull
  | jobj (fields : List (List Char × JValue))

/-- JSON whitespace. -/
def jsonWs (c : Char) : Bool :=
  c == ' ' || c == Char.ofNat 9 || c == cNl || c == Char.ofNat 13

/-- Skip JSON whitespace. -/
def skipJsonWs (s : List Char) : List Char := s.dropWhile jsonWs

/-- Scan a JSON string body after its opening quote, up to the closing quote.
The repaired carrier payloads contain no escape sequences, which are
therefore not modelled. -/
def scanJsonString : List Char → Option (List Char × List Char)
  | [] => none
  | c :: cs =>
    if c == cQuote then some ([], cs)
    else
      match scanJsonString cs with
      | some (str, rest) => some (c :: str, rest)
      | none => none

/-- Scan a JSON integer (optional minus sign and digits). -/
def scanJsonNumber (s : List Char) : Option (Int × List Char) :=
  match s with
  | '-' :: rest =>
    let ds := rest.takeWhile pyIsDigit
    if ds.isEmpty then none
    else some (-(ds.foldl (fun a c => a * 10 + (c.toNat - 48)) 0 : Nat),
      rest.drop ds.length)
  | _ =>
    let ds := s.takeWhile pyIsDigit
    if ds.isEmpty then none
    else some ((ds.foldl (fun a c => a * 10 + (c.toNat - 48)) 0 : Nat),
      s.drop ds.length)

/-- Scan a scalar JSON value: string, true, false, null or number. -/
def jsonScalar (s : List Char) : Option (JValue × List Char) :=
  match s with
  | [] => none
  | c :: cs =>
    if c == cQuote then
      (scanJsonString cs).map (fun p => (JValue.jstr p.1, p.2))
    else if ['t', 'r', 'u', 'e'].isPrefixOf s then
      some (JValue.jbool true, s.drop 4)
    else if ['f', 'a', 'l', 's', 'e'].isPrefixOf s then
      some (JValue.jbool false, s.drop 5)
    else if ['n', 'u', 'l', 'l'].isPrefixOf s then
      some (JValue.jnull, s.drop 4)
    else
      (scanJsonNumber s).map (fun p => (JValue.jnum p.1, p.2))

/-- Scan the quoted-key : scalar-value field list of a flat JSON object,
ending at the closing brace.  Fuel bounds the number of fields. -/
def jsonFields : Nat → List Char → Option (List (List Char × JValue) × List Char)
  | 0, _ => none
  | fuel + 1, s =>
    match skipJsonWs s with
    | [] => none
    | c :: cs =>
      if c == cQuote then
        match scanJsonString cs with
        | some (key, r1) =>
          (match skipJsonWs r1 with
           | ':' :: r2 =>
             (match jsonScalar (skipJsonWs r2) with
              | some (v, r3) =>
                (match skipJsonWs r3 with
                 | ',' :: r4 =>
                   (jsonFields fuel r4).map (fun p => ((key, v) :: p.1, p.2))
                 | d :: r4 =>
                   if d == cBraceClose then some ([(key, v)], r4) else none
                 | [] => none)
              | none => none)
           | _ => none)
        | none => none
      else none

/-- A model of the stdlib json.loads restricted to the payload shapes the
program receives: a flat object of scalar fields, or a bare scalar. -/
def json_loads (s : List Char) : Option JValue :=
  match skipJsonWs s with
  | [] => none
  | c :: cs =>
    if c == cBraceOpen then
      match skipJsonWs cs with
      | d :: ds =>
        if d == cBraceClose then
          if (skipJsonWs ds).isEmpty then some (JValue.jobj []) else none
        else
          match jsonFields (cs.length + 1) cs with
          | some (fs, rest) =>
            if (skipJsonWs rest).isEmpty then some (JValue.jobj fs) else none
          | none => none
      | [] => none
    else
      match jsonScalar (c :: cs) with
      | some (v, rest) =>
        if (skipJsonWs rest).isEmpty then some v else none
      | none => none

/-- O2Account.parse_json (lines 575-598): strip comments, single to double
quotes, drop stray ` * N,` fragments, quote bare keys, then json.loads. -/
def parse_json (content : List Char) : Option JValue :=
  let c1 := stripCommentsFuel content.length content
  let c2 := pyQuoteFix c1
  let c3 := stripStarFragFuel c2.length c2
  let c4 := quoteKeysFuel c3.length c3
  json_loads c4

/-- Field lookup in a parsed JSON object, as content['key'] does. -/
def jGet (v : JValue) (k : List Char) : Option JValue :=
  match v with
  | .jobj fs => fs.lookup k
  | _ => none

/-- Python truthiness of a parsed JSON value (how send_message's caller
consumes content['isSuccess']). -/
def pyTruthy : JValue → Bool
  | .jnum n => n != 0
  | .jstr s => !s.isEmpty
  | .jbool b => b
  | .jnull => false
  | .jobj fs => !fs.isEmpty

/-- The response shape exercised by the spec's Carrier-C repair example. -/
def o2SampleResponse : List Char :=
  "\x7b freeMessageCount : 3, /* note */ isSuccess:'true' \x7d".toList

/-- The names resolvable inside O2Account.send_message when its data dict
(lines 564-567) is evaluated: the function's parameters and locals bound so
far (self, recipients, message, url), the module-level names of cliresms.py
(imports, lines 5-27; globals, lines 34-48; defs and classes), and nothing
else — methods and attributes live on self, not as bare names. -/
def o2SendScopeNames : List String :=
  ["self", "recipients", "message", "url",
   "argparse", "cookiejar", "datetime", "getpass", "json", "logging", "os",
   "re", "signal", "sys", "time", "urlencode", "urlopen", "build_opener",
   "install_opener", "Request", "HTTPCookieProcessor", "URLError",
   "HTTPError", "raw_input", "username", "password", "split", "carrier",
   "aliases", "conf_file", "get_carriers", "main", "read_config",
   "get_message", "split_message", "process_recipients", "save_aliases",
   "send_message", "setup_parser", "signal_handler", "Account",
   "MeteorAccount", "ThreeAccount", "O2Account", "LoginException", "log",
   "print_function", "__version__", "__conf_file__", "__cookie_file__"]

/-- What a call to O2Account's send method produces and how many requests it
managed to issue. -/
structure O2SendResult where
  result : Except String Bool
  requestsSent : Nat

/-- O2Account.send_message (lines 562-573).  Building the data dict evaluates
`', '.join(recipient)`; the name lookup precedes the POST, so if "recipient"
is not in scope the NameError fires with no request sent.  Were the name
resolvable, the request would go out and the repaired response's isSuccess
field (here the oracle `responseIsSuccess`) would be returned. -/
def o2_send_message (recipients : List (List Char)) (message : List Char)
    (responseIsSuccess : Bool) : O2SendResult :=
  if o2SendScopeNames.contains "recipient" then
    { result := .ok responseIsSuccess, requestsSent := 1 }
  else
    { result := .error "NameError: name 'recipient' is not defined",
      requestsSent := 0 }

/-- The corrected behaviour of split_message for an overlong message with
splitting allowed, with maxLen = l + 1 (Python's range step must be
positive): the returned segments are the sequential maxLen-slices of the
message, each stripped after slicing; the un-stripped slices partition the
message in order with no overlap and no gaps, number ceil(len/maxLen), and
all but the last have length exactly maxLen before stripping (hence at most
maxLen after). -/
def SplitOk (l : Nat) (m : List Char) : Prop :=
  split_message m (l + 1) true = (chunksOf (l + 1) m).map pyStrip ∧
  (chunksOf (l + 1) m).flatten = m ∧
  (split_message m (l + 1) true).length = (m.length + l) / (l + 1) ∧
  (∀ c ∈ (chunksOf (l + 1) m).dropLast, c.length = l + 1) ∧
  (∀ c ∈ chunksOf (l + 1) m, c.length ≤ l + 1 ∧
    ∃ pre post, c = pre ++ pyStrip c ++ post ∧
      pre.all pyIsSpace = true ∧ post.all pyIsSpace = true)

/-- The sequential slices of a message concatenate back to the message:
no overlap, no gap, order preserved. -/
theorem chunksOfFuel_flatten (m : Nat) :
    ∀ (fuel : Nat) (xs : List Char), xs.length ≤ fuel →
      (chunksOfFuel (m + 1) fuel xs).flatten = xs := by
  intro fuel
  induction fuel with
  | zero =>
    intro xs h
    have hx : xs = [] := List.eq_nil_of_length_eq_zero (Nat.le_zero.mp h)
    subst hx
    simp [chunksOfFuel]
  | succ fuel ih =>
    intro xs h
    cases xs with
    | nil => simp [chunksOfFuel]
    | cons x xs' =>
      have hlen : ((x :: xs').drop (m + 1)).length ≤ fuel := by
        simp only [List.length_drop, List.length_cons]
        simp only [List.length_cons] at h
        omega
      simp only [chunksOfFuel, List.flatten_cons]
      rw [ih _ hlen]
      exact List.take_append_drop _ _

/-- A nonempty message yields at least one slice. -/
theorem chunksOfFuel_ne_nil (n fuel : Nat) (x : Char) (xs : List Char) :
    chunksOfFuel n fuel (x :: xs) ≠ [] := by
  cases fuel <;> simp [chunksOfFuel]

/-- The number of slices is ceil(len/maxLen). -/
theorem chunksOfFuel_length (m : Nat) :
    ∀ (fuel : Nat) (xs : List Char), xs.length ≤ fuel → xs ≠ [] →
      (chunksOfFuel (m + 1) fuel xs).length = (xs.length + m) / (m + 1) := by
  intro fuel
  induction fuel with
  | zero =>
    intro xs h hne
    exact absurd (List.eq_nil_of_length_eq_zero (Nat.le_zero.mp h)) hne
  | succ fuel ih =>
    intro xs h hne
    cases xs with
    | nil => exact absurd rfl hne
    | cons x xs' =>
      simp only [chunksOfFuel, List.length_cons]
      by_cases hc : xs'.length ≤ m
      · have hdrop : (x :: xs').drop (m + 1) = [] := by
          apply List.drop_eq_nil_of_le
          simp
          omega
        rw [hdrop]
        simp only [chunksOfFuel, List.length_cons, List.length_nil]
        symm
        apply Nat.div_eq_of_lt_le
        · omega
        · omega
      · push_neg at hc
        have hdne : (x :: xs').drop (m + 1) ≠ [] := by
          intro hnil
          have := congrArg List.length hnil
          simp only [List.length_drop, List.length_cons, List.length_nil] at this
          omega
        have hdlen : ((x :: xs').drop (m + 1)).length ≤ fuel := by
          simp only [List.length_drop, List.length_cons]
          simp only [List.length_cons] at h
          omega
        rw [ih _ hdlen hdne]
        simp only [List.length_drop, List.length_cons]
        have h1 : xs'.length + 1 - (m + 1) + m = xs'.length := by omega
        have h2 : xs'.length + 1 + m = xs'.length + (m + 1) := by omega
        rw [h1, h2, Nat.add_div_right _ (Nat.succ_pos m)]

/-- Every slice except the last has length exactly maxLen, and all slices
have length at most maxLen. -/
theorem chunksOfFuel_sizes (m : Nat) :
    ∀ (fuel : Nat) (xs : List Char), xs.length ≤ fuel →
      (∀ c ∈ (chunksOfFuel (m + 1) fuel xs).dropLast, c.length = m + 1) ∧
      (∀ c ∈ chunksOfFuel (m + 1) fuel xs, c.length ≤ m + 1) := by
  intro fuel
  induction fuel with
  | zero =>
    intro xs h
    have hx : xs = [] := List.eq_nil_of_length_eq_zero (Nat.le_zero.mp h)
    subst hx
    simp [chunksOfFuel]
  | succ fuel ih =>
    intro xs h
    cases xs with
    | nil => simp [chunksOfFuel]
    | cons x xs' =>
      simp only [chunksOfFuel]
      by_cases hc : xs'.length ≤ m
      · have hdrop : (x :: xs').drop (m + 1) = [] := by
          apply List.drop_eq_nil_of_le
          simp
          omega
        rw [hdrop]
        simp [chunksOfFuel, List.length_take]
      · push_neg at hc
        have hdlen : ((x :: xs').drop (m + 1)).length ≤ fuel := by
          simp only [List.length_drop, List.length_cons]
          simp only [List.length_cons] at h
          omega
        obtain ⟨ih1, ih2⟩ := ih _ hdlen
        have hdne : (x :: xs').drop (m + 1) ≠ [] := by
          intro hnil
          have := congrArg List.length hnil
          simp only [List.length_drop, List.length_cons, List.length_nil] at this
          omega
        have hCne : chunksOfFuel (m + 1) fuel ((x :: xs').drop (m + 1)) ≠ [] := by
          cases hd : (x :: xs').drop (m + 1) with
          | nil => exact absurd hd hdne
          | cons y ys => rw [hd] at *; exact chunksOfFuel_ne_nil _ _ _ _
        constructor
        · intro c hcmem
          rw [List.dropLast_cons_of_ne_nil hCne] at hcmem
          rcases List.mem_cons.mp hcmem with h1 | h2
          · subst h1
            simp [List.length_take]
            omega
          · exact ih1 _ h2
        · intro c hcmem
          rcases List.mem_cons.mp hcmem with h1 | h2
          · subst h1
            simp [List.length_take]
          · exact ih2 _ h2

/-- str.strip removes exactly a whitespace prefix and a whitespace suffix:
re-inserting them reproduces the original slice. -/
theorem pyStrip_decomp (s : List Char) :
    ∃ pre post, s = pre ++ pyStrip s ++ post ∧
      pre.all pyIsSpace = true ∧ post.all pyIsSpace = true := by
  refine ⟨s.takeWhile pyIsSpace,
    ((s.dropWhile pyIsSpace).reverse.takeWhile pyIsSpace).reverse, ?_, ?_, ?_⟩
  · conv_lhs => rw [(List.takeWhile_append_dropWhile pyIsSpace s).symm]
    rw [List.append_assoc]
    congr 1
    conv_lhs => rw [(List.reverse_reverse (s.dropWhile pyIsSpace)).symm,
      (List.takeWhile_append_dropWhile pyIsSpace (s.dropWhile pyIsSpace).reverse).symm]
    rw [List.reverse_append]
    rfl
  · rw [List.all_eq_true]
    intro x hx
    exact List.mem_takeWhile_imp hx
  · rw [List.all_eq_true]
    intro x hx
    exact List.mem_takeWhile_imp (List.mem_reverse.mp hx)

/-- Claim C1, amended: for an overlong message with splitting allowed,
split_message returns the ceil(len/maxLen) sequential maxLen-slices of the
message, stripped of leading and trailing whitespace after slicing; the
un-stripped slices partition the message left to right with no overlap and
no gaps (so concatenation with the stripped boundary whitespace re-inserted
reproduces the message), and every slice but the last has length exactly
maxLen before stripping - hence at most maxLen, not always exactly maxLen,
after stripping. -/
theorem c1_claim (l : Nat) (m : List Char) (h : l + 1 < m.length) : SplitOk l m := by
  have hne : m ≠ [] := by
    intro hx; subst hx; simp at h
  have hsm : split_message m (l + 1) true = (chunksOf (l + 1) m).map pyStrip := by
    simp [split_message, h]
  refine ⟨hsm, chunksOfFuel_flatten l m.length m le_rfl, ?_, ?_, ?_⟩
  · rw [hsm]
    simp only [List.length_map]
    exact chunksOfFuel_length l m.length m le_rfl hne
  · exact (chunksOfFuel_sizes l m.length m le_rfl).1
  · intro c hc
    refine ⟨(chunksOfFuel_sizes l m.length m le_rfl).2 c hc, pyStrip_decomp c⟩



/-- Claim C1, counterexample: for message "a b" and maxLen 2 the code
returns two segments and the first (non-last) returned segment is "a" of
length 1, not 2, because the boundary whitespace of the slice "a " is
stripped after slicing; so "every segment but the last has length exactly
maxLen" fails on the returned segments. -/
theorem c1_counterexample :
    split_message ['a', ' ', 'b'] 2 true = [['a'], ['b']] ∧
    (split_message ['a', ' ', 'b'] 2 true).length = 2 ∧
    ¬ (∀ c ∈ (split_message ['a', ' ', 'b'] 2 true).dropLast, c.length = 2) := by
  refine ⟨by decide, by decide, ?_⟩
  intro hall
  have := hall ['a'] (by decide)
  simp at this

/-- Witness for the C1 theorem at message "a " with maxLen 1. -/
theorem c1_theorem_witness :
    0 + 1 < (['a', ' '] : List Char).length ∧ SplitOk 0 ['a', ' '] :=
  ⟨by decide, c1_claim 0 ['a', ' '] (by decide)⟩

/-- Claim C2, counterexample: first quota read fetches 3 remotely, a send
to 3 recipients decrements the cache to 0, and the next read issues another
remote fetch (the network-call counter changes), because the getter re-runs
the fetch whenever the cached value is falsy - None or 0. -/
theorem c2_counterexample :
    (texts_remaining_get 7
        (texts_remaining_sub 3 3 ((texts_remaining_get 3
          { cached := none, netCalls := 0 }).2))).2.netCalls ≠
      (texts_remaining_sub 3 3 ((texts_remaining_get 3
          { cached := none, netCalls := 0 }).2)).netCalls ∧
    (texts_remaining_sub 3 3 ((texts_remaining_get 3
        { cached := none, netCalls := 0 }).2)).cached = some 0 := by
  constructor
  · decide
  · decide

/-- Claim C2, amended: the quota counter is fetched remotely on a read only
while the cached value is Python-falsy (None or 0); any read with a nonzero
cached value returns the cached value unchanged with no network call.  In
particular, after a successful send to 3 recipients with cached quota 5, a
subsequent read yields 2 with no network call, whatever values a remote
fetch would have produced. -/
theorem c2_claim (st : QuotaState) (v : Int) (f f2 f3 : Int)
    (h1 : st.cached = some v) (h2 : ¬ v = 0) :
    texts_remaining_get f st = (v, st) ∧
    (texts_remaining_get f2
      (texts_remaining_sub f3 3 { cached := some 5, netCalls := 0 })).1 = 2 ∧
    (texts_remaining_get f2
      (texts_remaining_sub f3 3 { cached := some 5, netCalls := 0 })).2.netCalls = 0 := by
  refine ⟨?_, ?_, ?_⟩
  · simp [texts_remaining_get, pyTruthyOptInt, h1, h2]
  · simp [texts_remaining_get, texts_remaining_sub, pyTruthyOptInt]
  · simp [texts_remaining_get, texts_remaining_sub, pyTruthyOptInt]

/-- Witness for the C2 theorem at cached quota 5. -/
theorem c2_theorem_witness :
    ({ cached := some 5, netCalls := 0 } : QuotaState).cached = some 5 ∧
    ¬ (5 : Int) = 0 ∧
    texts_remaining_get 9 { cached := some 5, netCalls := 0 } =
      (5, { cached := some 5, netCalls := 0 }) ∧
    (texts_remaining_get 11
      (texts_remaining_sub 13 3 { cached := some 5, netCalls := 0 })).1 = 2 ∧
    (texts_remaining_get 11
      (texts_remaining_sub 13 3 { cached := some 5, netCalls := 0 })).2.netCalls = 0 := by
  have h := c2_claim { cached := some 5, netCalls := 0 } 5 9 11 13 rfl (by decide)
  exact ⟨rfl, by decide, h.1, h.2.1, h.2.2⟩

/-- Claim C3, counterexample: quota 0 and quota -1 raise LoginException -
the very class main catches alongside the transport errors - so
main_offers_retry holds for both quota failures and the user IS prompted
"Retry send? [Y/n]", contradicting "no retry is offered". -/
theorem c3_counterexample :
    quota_gate 0 = .error (.loginException "You don't have any more texts remaining.") ∧
    quota_gate (-1) = .error (.loginException "Could not determine number of texts remaining.") ∧
    main_offers_retry (.loginException "You don't have any more texts remaining.") = true ∧
    main_offers_retry (.loginException "Could not determine number of texts remaining.") = true :=
  ⟨rfl, rfl, rfl, rfl⟩

/-- Claim C3, amended: a pre-send quota of 0 fails with the exhausted
message and a negative quota with the unknown message, both raised as
LoginException - the same class as a login failure - and main's top-level
handler offers the same whole-attempt retry for them as for login and
transport failures; a positive quota passes the gate. -/
theorem c3_claim (q : Int) (h : 0 < q) :
    quota_gate q = .ok () ∧
    quota_gate 0 = .error (.loginException "You don't have any more texts remaining.") ∧
    quota_gate (-1) = .error (.loginException "Could not determine number of texts remaining.") ∧
    main_offers_retry (.loginException "You don't have any more texts remaining.") =
      main_offers_retry .httpError ∧
    main_offers_retry (.loginException "Could not determine number of texts remaining.") =
      main_offers_retry .urlError := by
  refine ⟨?_, rfl, rfl, rfl, rfl⟩
  have h0 : (q == 0) = false := by
    simp
    omega
  have h1 : ¬ q < 0 := by omega
  simp [quota_gate, h0, h1]

/-- Witness for the C3 theorem at quota 1. -/
theorem c3_theorem_witness :
    (0 : Int) < 1 ∧ quota_gate 1 = .ok () :=
  ⟨by decide, (c3_claim 1 (by decide)).1⟩



/-- Claim C4, counterexample: a loaded jar holding only a cookie named
"SESSION" - not the carrier session-cookie name "JSESSIONID" - still makes
login() return success with no network handshake, because the code tests
Python substring containment (c.name in "JSESSIONID"), not name equality. -/
theorem c4_counterexample :
    (account_login true
      [{ name := "SESSION".toList, value := [], expires := some 9999, discard := false }]
      "JSESSIONID".toList false).success = true ∧
    (account_login true
      [{ name := "SESSION".toList, value := [], expires := some 9999, discard := false }]
      "JSESSIONID".toList false).usedNetwork = false ∧
    ([{ name := "SESSION".toList, value := [], expires := some 9999, discard := false }] :
      List Cookie).all (fun c => !(c.name == "JSESSIONID".toList)) = true := by
  refine ⟨by decide, by decide, by decide⟩

/-- Claim C4, amended: session reuse returns true iff some cookie in the
loaded set has a name that is a substring of the carrier session-cookie
name (Python's `in`), and cookie loading itself excludes expired and
discard-flagged cookies; when reuse triggers, login() performs no network
handshake and reports success. -/
theorem c4_claim (fileCookies : List Cookie) (now : Int) (sn : List Char) (remote : Bool) :
    (((account_login true (cookiejar_load now fileCookies) sn remote).success = true ∧
      (account_login true (cookiejar_load now fileCookies) sn remote).usedNetwork = false) ↔
      (cookiejar_load now fileCookies).any (fun c => pyStrIn c.name sn) = true) ∧
    ∀ c ∈ cookiejar_load now fileCookies,
      cookie_is_expired now c = false ∧ c.discard = false := by
  constructor
  · by_cases hany :
        (cookiejar_load now fileCookies).any (fun c => pyStrIn c.name sn) = true
    · simp [account_login, hany]
    · simp [account_login, hany]
  · intro c hc
    simp only [cookiejar_load, List.mem_filter] at hc
    have h2 := hc.2
    simp only [Bool.and_eq_true, Bool.not_eq_true'] at h2
    exact ⟨h2.2, h2.1⟩

/-- Witness for the C4 theorem on a one-cookie jar. -/
theorem c4_theorem_witness :
    (((account_login true
        (cookiejar_load 0
          [{ name := "SESSION".toList, value := [], expires := some 9999, discard := false }])
        "JSESSIONID".toList false).success = true ∧
      (account_login true
        (cookiejar_load 0
          [{ name := "SESSION".toList, value := [], expires := some 9999, discard := false }])
        "JSESSIONID".toList false).usedNetwork = false) ↔
      (cookiejar_load 0
        [{ name := "SESSION".toList, value := [], expires := some 9999, discard := false }]).any
        (fun c => pyStrIn c.name "JSESSIONID".toList) = true) ∧
    ∀ c ∈ cookiejar_load 0
        [{ name := "SESSION".toList, value := [], expires := some 9999, discard := false }],
      cookie_is_expired 0 c = false ∧ c.discard = false :=
  c4_claim
    [{ name := "SESSION".toList, value := [], expires := some 9999, discard := false }]
    0 "JSESSIONID".toList false

/-- When every recipient validates, the loop walks the whole list: each
recipient is validated once, in order, and appended to the validated
list. -/
theorem validate_loop_all_ok (v : List Char → Except String (List Char)) :
    ∀ (fuel i : Nat) (lst acc calls : List (List Char)),
      (∀ x ∈ lst, (v x).isOk = true) → lst.length ≤ i + fuel →
      validate_loop v fuel i lst acc calls =
        { validated := acc ++ (lst.drop i).map (fun x => exOk (v x)),
          remaining := lst, calls := calls ++ lst.drop i } := by
  intro fuel
  induction fuel with
  | zero =>
    intro i lst acc calls hall hle
    have hdrop : lst.drop i = [] := List.drop_eq_nil_of_le (by omega)
    simp [validate_loop, hdrop]
  | succ fuel ih =>
    intro i lst acc calls hall hle
    by_cases h : i < lst.length
    · have hx : lst.get ⟨i, h⟩ ∈ lst := lst.get_mem i h
      have hok := hall _ hx
      cases hv : v (lst.get ⟨i, h⟩) with
      | error e => rw [hv] at hok; simp [Except.isOk, Except.toBool] at hok
      | ok val =>
        simp only [validate_loop]
        rw [dif_pos h, hv]
        change validate_loop v fuel (i + 1) lst (acc ++ [val])
          (calls ++ [lst.get ⟨i, h⟩]) = _
        rw [ih (i + 1) lst (acc ++ [val]) (calls ++ [lst.get ⟨i, h⟩]) hall (by omega)]
        rw [show lst.drop i = lst.get ⟨i, h⟩ :: lst.drop (i + 1) from
          (List.get_cons_drop lst ⟨i, h⟩).symm]
        simp only [List.map_cons, hv, exOk, ValidateLoopResult.mk.injEq,
          List.append_assoc, List.singleton_append, List.cons_append,
          List.nil_append, and_true, true_and, and_self]
    · have hdrop : lst.drop i = [] := List.drop_eq_nil_of_le (by omega)
      simp [validate_loop, h, hdrop]

/-- Claim C5, amended: recipients are scanned by index while failures are
removed from the same list, so a failure shifts the next recipient into the
removed slot and it is skipped without ever being validated; only when every
recipient passes validation is each recipient validated and included, in
order, in the list passed to the send. -/
theorem c5_claim (v : List Char → Except String (List Char))
    (lst : List (List Char)) (h : ∀ x ∈ lst, (v x).isOk = true) :
    validate_recipients v lst =
      { validated := lst.map (fun x => exOk (v x)),
        remaining := lst, calls := lst } := by
  have hrun := validate_loop_all_ok v lst.length 0 lst [] [] h (by omega)
  simpa [validate_recipients] using hrun

/-- Claim C5, counterexample: with two invalid recipients "1" and "2", the
failing "1" is removed mid-iteration, the iterator's next index is past the
shortened list, and "2" is never passed to validation (and gets no warning):
the calls log holds only "1". -/
theorem c5_counterexample :
    (validate_recipients meteor_validate_number [['1'], ['2']]).calls = [['1']] ∧
    ¬ (['2'] ∈ (validate_recipients meteor_validate_number [['1'], ['2']]).calls) ∧
    (validate_recipients meteor_validate_number [['1'], ['2']]).validated = [] ∧
    (validate_recipients meteor_validate_number [['1'], ['2']]).remaining = [['2']] := by
  refine ⟨by decide, by decide, by decide, by decide⟩

/-- Witness for the C5 theorem on an all-valid recipient list. -/
theorem c5_theorem_witness :
    validate_recipients meteor_validate_number ["0851234567".toList] =
      { validated := (["0851234567".toList]).map (fun x => exOk (meteor_validate_number x)),
        remaining := ["0851234567".toList], calls := ["0851234567".toList] } :=
  c5_claim meteor_validate_number ["0851234567".toList] (by decide)

/-- Claim C6, counterexample: the 11-digit "08512345678" is accepted and
returned unchanged, because the pattern ^08[0-9]\d{7} is anchored only at
the start; so "fixed total digit count (10 digits)" fails. -/
theorem c6_counterexample :
    meteor_validate_number "08512345678".toList = .ok "08512345678".toList ∧
    ("08512345678".toList).length = 11 ∧
    ¬ ("08512345678".toList).length = 10 :=
  ⟨rfl, rfl, by decide⟩

/-- Claim C6, amended: carrier-A normalization rewrites the +353 / 00353
international prefix to a leading 0 and accepts exactly the results whose
first ten characters are 0, 8 and eight digits (a prefix pattern, with no
bound on the total length); the three spec examples normalize to
"0851234567", and 9-digit or non-08 results are rejected. -/
theorem c6_claim :
    meteor_validate_number "+353851234567".toList = .ok "0851234567".toList ∧
    meteor_validate_number "00353851234567".toList = .ok "0851234567".toList ∧
    meteor_validate_number "0851234567".toList = .ok "0851234567".toList ∧
    meteor_validate_number "085123456".toList =
      .error "invalid; expected 10 digits beginning with 08" ∧
    meteor_validate_number "0151234567".toList =
      .error "invalid; expected 10 digits beginning with 08" ∧
    ∀ s r, meteor_validate_number s = .ok r → matches08 r = true := by
  refine ⟨rfl, rfl, rfl, rfl, rfl, ?_⟩
  intro s r h
  unfold meteor_validate_number at h
  cases hv : validate_number s with
  | error e => rw [hv] at h; simp at h
  | ok r1 =>
    rw [hv] at h
    simp only at h
    by_cases hm : matches08 (sub353 r1) = true
    · rw [if_pos hm] at h
      have hr : sub353 r1 = r := by
        injection h
      rw [← hr]
      exact hm
    · rw [if_neg hm] at h
      exact absurd h (by simp)

/-- Witness for the C6 theorem's acceptance characterization. -/
theorem c6_theorem_witness : matches08 "0851234567".toList = true :=
  c6_claim.2.2.2.2.2 "0851234567".toList "0851234567".toList rfl



/-- A digit or '+' survives the whitespace/hyphen/dot strip. -/
theorem keepChar_of_digitOrPlus (c : Char)
    (h : (pyIsDigit c || c == '+') = true) :
    (!(pyIsSpace c || c == '-' || c == '.')) = true := by
  have h' : pyIsDigit c = true ∨ c = '+' := by simpa using h
  rcases h' with hd | hp
  · have hs : pyIsSpace c = false := by
      cases hcs : pyIsSpace c
      · rfl
      · exfalso
        have h4 : c = ' ' ∨ c = '\t' ∨ c = '\x0d' ∨ c = '\n' := by
          simp [pyIsSpace, Char.isWhitespace] at hcs
          tauto
        rcases h4 with h1 | h1 | h1 | h1 <;> (subst h1; revert hd; decide)
    have hm : (c == '-') = false := by
      cases hcm : (c == '-')
      · rfl
      · exfalso
        have h1 : c = '-' := eq_of_beq hcm
        subst h1; revert hd; decide
    have hdot : (c == '.') = false := by
      cases hcd : (c == '.')
      · rfl
      · exfalso
        have h1 : c = '.' := eq_of_beq hcd
        subst h1; revert hd; decide
    simp [hs, hm, hdot]
  · subst hp; decide

/-- What an accepted base validation tells us: the result is the stripped
input and all its characters are digits or '+'. -/
theorem validate_ok (s r : List Char) (h : validate_number s = .ok r) :
    r = stripFormatChars s ∧ ∀ c ∈ r, (pyIsDigit c || c == '+') = true := by
  unfold validate_number at h
  cases hany : (stripFormatChars s).any (fun c => !(pyIsDigit c || c == '+')) with
  | true => rw [hany] at h; simp at h
  | false =>
    rw [hany] at h
    simp at h
    have hchars := List.any_eq_false.mp hany
    constructor
    · exact h.symm
    · intro c hc
      have hmem : c ∈ stripFormatChars s := by rw [h]; exact hc
      have h2 : pyIsDigit c = false → c = '+' := by simpa using hchars c hmem
      cases hd : pyIsDigit c
      · simp [h2 hd]
      · simp

/-- The base rule accepts unchanged any string of digits and '+'. -/
theorem validate_fix (r : List Char)
    (hchars : ∀ c ∈ r, (pyIsDigit c || c == '+') = true) :
    validate_number r = .ok r := by
  have hkeep : ∀ c ∈ r, (!(pyIsSpace c || c == '-' || c == '.')) = true :=
    fun c hc => keepChar_of_digitOrPlus c (hchars c hc)
  have hstrip : stripFormatChars r = r := List.filter_eq_self.mpr hkeep
  have hany : r.any (fun c => !(pyIsDigit c || c == '+')) = false := by
    apply List.any_eq_false.mpr
    intro c hc
    simp [hchars c hc]
  unfold validate_number
  rw [hstrip, hany]
  simp

/-- The prefix rewrite only ever emits '0' or characters of its input. -/
theorem sub353_chars (P : Char → Bool) (h0 : P '0' = true) :
    ∀ l : List Char, (∀ c ∈ l, P c = true) → ∀ c ∈ sub353 l, P c = true := by
  intro l
  induction l using sub353.induct with
  | case1 rest ih =>
    intro hall d hd
    rw [sub353.eq_1] at hd
    rcases List.mem_cons.mp hd with h1 | h1
    · subst h1; exact h0
    · exact ih (fun c hc => hall c (by simp [hc])) d h1
  | case2 rest ih =>
    intro hall d hd
    rw [sub353.eq_2] at hd
    rcases List.mem_cons.mp hd with h1 | h1
    · subst h1; exact h0
    · exact ih (fun c hc => hall c (by simp [hc])) d h1
  | case3 c cs hn1 hn2 ih =>
    intro hall d hd
    rw [sub353.eq_3 c cs hn1 hn2] at hd
    rcases List.mem_cons.mp hd with h1 | h1
    · subst h1; exact hall d (by simp)
    · exact ih (fun e he => hall e (by simp [he])) d h1
  | case4 =>
    intro hall d hd
    simp [sub353] at hd

/-- Claim C7, amended: the base rule is idempotent - renormalizing an
accepted result returns it unchanged; the carrier-A rule is idempotent on an
accepted result exactly when the result is a fixed point of the +353/00353
rewrite (no occurrence of either prefix remains in it). -/
theorem c7_claim (s r : List Char) :
    (validate_number s = .ok r → validate_number r = .ok r) ∧
    (meteor_validate_number s = .ok r → sub353 r = r →
      meteor_validate_number r = .ok r) := by
  constructor
  · intro h
    exact validate_fix r (validate_ok s r h).2
  · intro h hfix
    unfold meteor_validate_number at h
    cases hv : validate_number s with
    | error e => rw [hv] at h; simp at h
    | ok r1 =>
      rw [hv] at h
      simp only at h
      by_cases hm : matches08 (sub353 r1) = true
      · rw [if_pos hm] at h
        have hr : sub353 r1 = r := by injection h
        have hchars1 := (validate_ok s r1 hv).2
        have hchars : ∀ c ∈ r, (pyIsDigit c || c == '+') = true := by
          rw [← hr]
          exact sub353_chars _ (by decide) r1 hchars1
        have hvr : validate_number r = .ok r := validate_fix r hchars
        have hm' : matches08 r = true := hr ▸ hm
        unfold meteor_validate_number
        rw [hvr]
        simp [hfix, hm']
      · rw [if_neg hm] at h
        exact absurd h (by simp)

/-- Claim C7, counterexample: carrier-A accepts "0851234567+3530353" with
result "085123456700353", in which the rewrite left a fresh "00353"
substring; renormalizing that accepted result yields the different value
"08512345670", so the carrier rule is not idempotent. -/
theorem c7_counterexample :
    meteor_validate_number "0851234567+3530353".toList =
      .ok "085123456700353".toList ∧
    meteor_validate_number "085123456700353".toList =
      .ok "08512345670".toList ∧
    ¬ ("08512345670".toList = "085123456700353".toList) :=
  ⟨rfl, rfl, by decide⟩

/-- Witness for the C7 theorem at the already-normal "0851234567". -/
theorem c7_theorem_witness :
    validate_number "0851234567".toList = .ok "0851234567".toList ∧
    meteor_validate_number "0851234567".toList = .ok "0851234567".toList :=
  ⟨(c7_claim "0851234567".toList "0851234567".toList).1 rfl,
   (c7_claim "0851234567".toList "0851234567".toList).2 rfl rfl⟩



/-- Claim C8, confirmed: on { freeMessageCount : 3, /* note */
isSuccess:'true' } the repair strips the comment, converts the single
quotes to double quotes, quotes the two bare keys, and the result parses to
the object with freeMessageCount the number 3 and isSuccess the string
"true" - truthy, i.e. read as the boolean true at its use site, which is
how the program consumes the success field. -/
theorem c8_claim :
    stripCommentsFuel o2SampleResponse.length o2SampleResponse =
      "\x7b freeMessageCount : 3,isSuccess:'true' \x7d".toList ∧
    pyQuoteFix (stripCommentsFuel o2SampleResponse.length o2SampleResponse) =
      "\x7b freeMessageCount : 3,isSuccess:\x22true\x22 \x7d".toList ∧
    (quoteKeysFuel
      ("\x7b freeMessageCount : 3,isSuccess:\x22true\x22 \x7d".toList).length
      ("\x7b freeMessageCount : 3,isSuccess:\x22true\x22 \x7d".toList)) =
      "\x7b \x22freeMessageCount\x22 : 3,\x22isSuccess\x22:\x22true\x22 \x7d".toList ∧
    parse_json o2SampleResponse =
      some (.jobj [("freeMessageCount".toList, .jnum 3),
        ("isSuccess".toList, .jstr "true".toList)]) ∧
    (jGet ((parse_json o2SampleResponse).getD .jnull) "freeMessageCount".toList) =
      some (.jnum 3) ∧
    ((jGet ((parse_json o2SampleResponse).getD .jnull) "isSuccess".toList).map
      pyTruthy) = some true :=
  ⟨rfl, rfl, rfl, rfl, rfl, rfl⟩

/-- Updating the last matching cookie of a jar decomposed around its last
match rewrites exactly that cookie. -/
theorem updateLastWhere_append (p : Cookie → Bool) (f : Cookie → Cookie)
    (pre post : List Cookie) (c : Cookie) (hc : p c = true)
    (hpost : post.all (fun d => !(p d)) = true) :
    updateLastWhere p f (pre ++ c :: post) = pre ++ f c :: post := by
  induction pre with
  | nil =>
    have hany : post.any p = false := by
      rw [List.any_eq_false]
      intro d hd
      have hx := List.all_eq_true.mp hpost d hd
      simp at hx
      simp [hx]
    simp only [List.nil_append, updateLastWhere, hany, hc]
    simp
  | cons a pre ih =>
    have hany : (pre ++ c :: post).any p = true := by
      rw [List.any_eq_true]
      exact ⟨c, by simp, hc⟩
    show (if (pre ++ c :: post).any p then a :: updateLastWhere p f (pre ++ c :: post)
      else if p a then f a :: (pre ++ c :: post)
      else a :: updateLastWhere p f (pre ++ c :: post)) = a :: (pre ++ f c :: post)
    rw [hany, ih]
    simp

/-- Claim C9, amended: the base persist locates the (last) session cookie,
clears its discard flag and sets its expiry to now + 30 minutes; carrier-B's
override replaces this behaviour instead of extending it - it clears the
session cookie's discard flag and copies the login cookie's expiry onto the
session cookie (the session cookie mirrors the login cookie's lifetime, the
reverse of the claim), applying no 30-minute extension to either cookie. -/
theorem c9_claim (pre post : List Cookie) (c lc : Cookie) (now : Int)
    (sn ln : List Char)
    (h1 : (c.name == sn) = true)
    (h2 : post.all (fun d => !(d.name == sn)) = true)
    (h3 : lastWhere (fun d => d.name == ln) (pre ++ c :: post) = some lc) :
    account_save_cookies sn now (pre ++ c :: post) =
      some (pre ++ { c with discard := false, expires := some (now + 1800) } :: post) ∧
    three_save_cookies ln sn (pre ++ c :: post) =
      some (pre ++ { c with discard := false, expires := lc.expires } :: post) := by
  have hany : (pre ++ c :: post).any (fun d => d.name == sn) = true := by
    rw [List.any_eq_true]
    exact ⟨c, by simp, h1⟩
  constructor
  · unfold account_save_cookies
    rw [hany]
    simp only [if_true]
    rw [updateLastWhere_append _ _ pre post c h1 h2]
  · unfold three_save_cookies
    rw [h3]
    simp only
    rw [hany]
    simp only [if_true]
    rw [updateLastWhere_append _ _ pre post c h1 h2]

/-- Claim C9, counterexample: with the session cookie AWSELB expiring at
100, the login cookie CAKEPHP at 500 and now = 0, carrier-B persist sets the
session cookie's expiry to 500 - the login cookie's value, not now + 1800 -
and leaves the login cookie untouched. -/
theorem c9_counterexample :
    three_save_cookies "CAKEPHP".toList "AWSELB".toList
      [{ name := "AWSELB".toList, value := [], expires := some 100, discard := true },
       { name := "CAKEPHP".toList, value := [], expires := some 500, discard := true }] =
      some
        [{ name := "AWSELB".toList, value := [], expires := some 500, discard := false },
         { name := "CAKEPHP".toList, value := [], expires := some 500, discard := true }] ∧
    ¬ (some (500 : Int) = some ((0 : Int) + 1800)) :=
  ⟨rfl, by decide⟩

/-- Witness for the C9 theorem on a two-cookie jar. -/
theorem c9_theorem_witness :
    account_save_cookies "AWSELB".toList 0
      ([{ name := "CAKEPHP".toList, value := [], expires := some 500, discard := true }] ++
        { name := "AWSELB".toList, value := [], expires := some 100, discard := true } :: []) =
      some
        ([{ name := "CAKEPHP".toList, value := [], expires := some 500, discard := true }] ++
          { name := "AWSELB".toList, value := [], expires := some ((0 : Int) + 1800),
            discard := false } :: []) ∧
    three_save_cookies "CAKEPHP".toList "AWSELB".toList
      ([{ name := "CAKEPHP".toList, value := [], expires := some 500, discard := true }] ++
        { name := "AWSELB".toList, value := [], expires := some 100, discard := true } :: []) =
      some
        ([{ name := "CAKEPHP".toList, value := [], expires := some 500, discard := true }] ++
          { name := "AWSELB".toList, value := [], expires := some 500,
            discard := false } :: []) :=
  c9_claim
    [{ name := "CAKEPHP".toList, value := [], expires := some 500, discard := true }]
    []
    { name := "AWSELB".toList, value := [], expires := some 100, discard := true }
    { name := "CAKEPHP".toList, value := [], expires := some 500, discard := true }
    0 "AWSELB".toList "CAKEPHP".toList (by decide) (by decide) (by decide)

/-- Claim C10, confirmed: for every recipient list and message segment,
carrier-C's send evaluates its data dict, which references the unbound name
"recipient" (the parameter is "recipients"), so a NameError is raised before
any request is issued and the call can never report success. -/
theorem c10_claim (rs : List (List Char)) (seg : List Char) (b : Bool) :
    (o2_send_message rs seg b).result =
      .error "NameError: name 'recipient' is not defined" ∧
    (o2_send_message rs seg b).requestsSent = 0 ∧
    ∀ ok : Bool, ¬ (o2_send_message rs seg b).result = .ok ok := by
  have hscope : ¬ ("recipient" ∈ o2SendScopeNames) := by decide
  refine ⟨?_, ?_, ?_⟩ <;> simp [o2_send_message, hscope]

/-- Witness for the C10 theorem at a one-recipient call. -/
theorem c10_theorem_witness :
    (o2_send_message [['0']] ['h'] true).result =
      .error "NameError: name 'recipient' is not defined" ∧
    (o2_send_message [['0']] ['h'] true).requestsSent = 0 ∧
    ∀ ok : Bool, ¬ (o2_send_message [['0']] ['h'] true).result = .ok ok :=
  c10_claim [['0']] ['h'] true

end Cliresms
